import Mathlib

/-!
Verification development for the procedural-world and fishing subsystem of the
fishingGame repository. The definitions below are shallow embeddings of
`src/src/systems/TerrainSystem.ts`, the `WaterZoneSystem` class
(embedded in `src/src/scenes/__tests__/GameplayScene.test.ts`) and the
`FishingSystem` class (embedded in
`src/src/systems/__tests__/BackgroundSystem.test.ts`). JavaScript numbers are
modelled as real numbers where trigonometry or square roots occur and as
rationals or integers where all arithmetic is exact; engine objects (sprites,
delayed-call timers) are modelled as explicit data. Definitions come first,
followed by all theorems.
-/

namespace FishingGame

namespace TerrainSystem

/-- Number of tiles per chunk (`chunkSize` field, TerrainSystem.ts line 10). -/
def chunkSize : ℕ := 16

/-- Size of each tile in pixels (`tileSize` field, TerrainSystem.ts line 11). -/
def tileSize : ℤ := 32

/-- Width of a chunk in pixels (`chunkWidth = chunkSize * tileSize`,
TerrainSystem.ts line 31). -/
def chunkWidth : ℤ := (chunkSize : ℤ) * tileSize

/-- Distance in chunks before triggering a reload (`updateThreshold`,
TerrainSystem.ts line 18). -/
def updateThreshold : ℤ := 2

/-- Chunks loaded on either side of the center (`chunksToLoad`,
TerrainSystem.ts line 120). -/
def chunksToLoad : ℤ := 3

/-- Eviction distance for loaded chunks (`maxDistance`, TerrainSystem.ts
line 91). -/
def maxDistance : ℤ := 5

/-- The noise function of the current TerrainSystem revision
(TerrainSystem.ts lines 286-290):
`Math.sin(x + seed) * Math.cos(y + seed * 0.7)`. -/
noncomputable def noise (x y seed : ℝ) : ℝ :=
  Real.sin (x + seed) * Real.cos (y + seed * 0.7)

/-- The noise function of the older TerrainSystem revision
(src/unnamed/part_004 lines 327-331), which adds a second harmonic. -/
noncomputable def noiseV2 (x y seed : ℝ) : ℝ :=
  Real.sin (x + seed) * Real.cos (y + seed * 0.7) +
    Real.sin (x * 0.5 + seed * 0.3) * Real.cos (y * 0.5 + seed * 0.2) * 0.5

/-- World x-coordinate of column `i` of chunk `chunkIndex`
(`x = chunkStartX + i * tileSize + tileSize / 2`, TerrainSystem.ts line 156). -/
noncomputable def columnX (chunkIndex : ℤ) (i : ℕ) : ℝ :=
  (chunkIndex : ℝ) * (chunkWidth : ℝ) + (i : ℝ) * (tileSize : ℝ) + (tileSize : ℝ) / 2

/-- Normalised noise used for the height map
(`(noiseValue + 1) / 2`, TerrainSystem.ts lines 161-162). -/
noncomputable def normalizedNoise (seed x : ℝ) : ℝ :=
  (noise (x * 0.01) 0 seed + 1) / 2

/-- Column height in blocks
(`Math.floor(minHeight + normalizedNoise * maxHeightVariation)` with
`minHeight = 3` and `maxHeightVariation = 6`, TerrainSystem.ts lines 166-168). -/
noncomputable def columnHeight (seed x : ℝ) : ℤ :=
  ⌊(3 : ℝ) + normalizedNoise seed x * 6⌋

/-- A terrain block sprite as created by `this.terrainGroup.create(x, y, type)`
(TerrainSystem.ts line 199). Blocks are engine objects with identity; the
field `bid` models object identity (creation order), `x` and `y` the sprite
position and `tex` the texture key. -/
structure Block where
  bid : ℕ
  x : ℤ
  y : ℤ
  tex : String
deriving DecidableEq

/-- Texture selection by depth (`getTerrainTypeForHeight`, TerrainSystem.ts
lines 215-228). `currentHeight` is the row within the column, `totalHeight`
the column height. -/
def getTerrainTypeForHeight (currentHeight totalHeight : ℤ) : String :=
  if currentHeight = totalHeight - 1 then "terrain_dirt"
  else if currentHeight ≥ totalHeight - 3 then "terrain_sand"
  else "terrain_rock"

/-- Blocks of one terrain column (`createTerrainColumn`, TerrainSystem.ts
lines 190-208): for each row `i` below `height`, a block at
`y = (worldHeight - tileSize / 2) - i * tileSize`. Identities are assigned
sequentially starting at `startId`. -/
def columnBlocks (worldHeight x : ℤ) (startId : ℕ) (height : ℕ) : List Block :=
  (List.range height).map fun (i : ℕ) =>
    { bid := startId + i
      x := x
      y := (worldHeight - tileSize / 2) - (i : ℤ) * tileSize
      tex := getTerrainTypeForHeight (i : ℤ) (height : ℤ) }

/-- Column x-positions and heights of a chunk. The height of column `i` is
abstracted by `hf chunkIndex i`: in the source it is
`Math.floor(minHeight + normalizedNoise * maxHeightVariation)` computed from
the noise function (TerrainSystem.ts lines 155-168); the abstraction keeps the
block bookkeeping exact while the numeric height map is treated separately
(see `columnHeight`). -/
def colSpecs (hf : ℤ → ℕ → ℕ) (k : ℤ) : List (ℤ × ℕ) :=
  (List.range chunkSize).map fun (i : ℕ) =>
    (k * chunkWidth + (i : ℤ) * tileSize + tileSize / 2, hf k i)

/-- Concatenation of the column blocks of a chunk, threading the identity
counter left to right exactly as the generation loop does. -/
def freshAux (worldHeight : ℤ) : List (ℤ × ℕ) → ℕ → List Block
  | [], _ => []
  | (x, h) :: rest, startId =>
      columnBlocks worldHeight x startId h ++ freshAux worldHeight rest (startId + h)

/-- All blocks created by a cache-miss `generateChunk(k)` call
(TerrainSystem.ts lines 151-176). -/
def freshBlocks (hf : ℤ → ℕ → ℕ) (worldHeight k : ℤ) (startId : ℕ) : List Block :=
  freshAux worldHeight (colSpecs hf k) startId

/-- Total number of blocks in a list of column specifications. -/
def specsHeight (l : List (ℤ × ℕ)) : ℕ := (l.map Prod.snd).sum

/-- Lookup in the chunk cache (`this.chunkCache.get(chunkIndex)`, a JS Map
keyed by chunk index). -/
def cacheGet : List (ℤ × List Block) → ℤ → Option (List Block)
  | [], _ => none
  | (kk, v) :: rest, k => if kk = k then some v else cacheGet rest k

/-- Store in the chunk cache (`this.chunkCache.set(chunkIndex, blocks)`). -/
def cacheSet : List (ℤ × List Block) → ℤ → List Block → List (ℤ × List Block)
  | [], k, v => [(k, v)]
  | (kk, vv) :: rest, k, v =>
      if kk = k then (kk, v) :: rest else (kk, vv) :: cacheSet rest k v

/-- Whether a block lies in the x-range of chunk `k`
(`block.x >= chunkStartX && block.x < chunkEndX`, TerrainSystem.ts line 245). -/
def inChunkB (k : ℤ) (b : Block) : Bool :=
  decide (k * chunkWidth ≤ b.x ∧ b.x < k * chunkWidth + chunkWidth)

/-- Mutable state of the block-level terrain bookkeeping: the active
collidable group (`this.terrainGroup`, in insertion order), the chunk cache
(`this.chunkCache`), the number of noise evaluations made by chunk generation
(one per column slot; used to observe whether regeneration ran), and the
number of blocks ever created (`nextId`, the next object identity). -/
structure TWorld where
  terrainGroup : List Block
  chunkCache : List (ℤ × List Block)
  noiseCalls : ℕ
  nextId : ℕ
deriving DecidableEq

/-- Regeneration path of `generateChunk` (TerrainSystem.ts lines 151-176):
creates the blocks of every column (evaluating the noise function once per
column slot) and stores a copy of the generated list in the cache. -/
def regenChunk (hf : ℤ → ℕ → ℕ) (worldHeight : ℤ) (w : TWorld) (k : ℤ) : TWorld :=
  let fresh := freshBlocks hf worldHeight k w.nextId
  { terrainGroup := w.terrainGroup ++ fresh
    chunkCache := cacheSet w.chunkCache k fresh
    noiseCalls := w.noiseCalls + chunkSize
    nextId := w.nextId + specsHeight (colSpecs hf k) }

/-- The `generateChunk` method (TerrainSystem.ts lines 134-182): if the cache
holds a non-empty entry for the index, re-add each cached block that is not
already contained in the group and return; otherwise regenerate. -/
def generateChunk (hf : ℤ → ℕ → ℕ) (worldHeight : ℤ) (w : TWorld) (k : ℤ) : TWorld :=
  match cacheGet w.chunkCache k with
  | some cached =>
      if cached = [] then regenChunk hf worldHeight w k
      else
        { w with
            terrainGroup :=
              w.terrainGroup ++ cached.filter fun b => decide (b ∉ w.terrainGroup) }
  | none => regenChunk hf worldHeight w k

/-- The `unloadChunk` method (TerrainSystem.ts lines 234-270): collect the
group blocks lying in the x-range of the chunk; if there are none, return;
otherwise cache them (only when no cache entry exists yet) and remove them
from the group without destroying them. -/
def unloadChunk (w : TWorld) (k : ℤ) : TWorld :=
  let blocksToRemove := w.terrainGroup.filter (inChunkB k)
  if blocksToRemove = [] then w
  else
    { w with
        terrainGroup := w.terrainGroup.filter fun b => !inChunkB k b
        chunkCache :=
          match cacheGet w.chunkCache k with
          | none => cacheSet w.chunkCache k blocksToRemove
          | some _ => w.chunkCache }

/-- Center chunk of a camera position (`Math.floor(cameraX / chunkWidth)`,
TerrainSystem.ts line 59). Camera positions are modelled as rationals. -/
def centerChunkIndex (cameraX : ℚ) : ℤ := ⌊cameraX / (chunkWidth : ℚ)⌋

/-- The `getVisibleChunkIndices` method (TerrainSystem.ts lines 115-128):
the seven indices from `center - chunksToLoad` to `center + chunksToLoad`. -/
def getVisibleChunkIndices (cameraX : ℚ) : List ℤ :=
  (List.range 7).map fun (j : ℕ) => centerChunkIndex cameraX - chunksToLoad + (j : ℤ)

/-- Full terrain-system state: block bookkeeping plus the loaded-chunk key
set (`this.loadedChunks`, in insertion order) and the last center chunk
(`this.lastCenterChunkIndex`). -/
structure TSys where
  world : TWorld
  loadedChunks : List ℤ
  lastCenter : ℤ
deriving DecidableEq

/-- The `update` method (TerrainSystem.ts lines 56-109). Skips all work when
chunks are loaded and the camera moved less than `updateThreshold` chunks;
otherwise generates every visible chunk not yet loaded, then evicts every
loaded chunk farther than `maxDistance` from the center. -/
def update (hf : ℤ → ℕ → ℕ) (worldHeight : ℤ) (ts : TSys) (cameraX : ℚ) : TSys :=
  let c := centerChunkIndex cameraX
  if ts.loadedChunks ≠ [] ∧ |c - ts.lastCenter| < updateThreshold then ts
  else
    let chunksToGenerate :=
      (getVisibleChunkIndices cameraX).filter fun i => decide (i ∉ ts.loadedChunks)
    let w1 := chunksToGenerate.foldl (generateChunk hf worldHeight) ts.world
    let loaded1 := ts.loadedChunks ++ chunksToGenerate
    let distant := loaded1.filter fun i => decide (maxDistance < |i - c|)
    let w2 := distant.foldl unloadChunk w1
    { world := w2
      loadedChunks := loaded1.filter fun i => decide (¬maxDistance < |i - c|)
      lastCenter := c }

/-- Constant height map used to instantiate the abstracted height function in
concrete runs; three blocks is the minimum height of the source generator. -/
def demoHeight : ℤ → ℕ → ℕ := fun _ _ => 3

/-- Fresh terrain-system state as built by the constructor. -/
def initTSys : TSys := { world := ⟨[], [], 0, 0⟩, loadedChunks := [], lastCenter := 0 }

/-- State after a first update at camera position 0. -/
def demoTS1 : TSys := update demoHeight 600 initTSys 0

/-- State after a second update at camera position 1024 (center chunk 2). -/
def demoTS2 : TSys := update demoHeight 600 demoTS1 1024

end TerrainSystem

namespace WaterZoneSystem

/-- Noise function of WaterZoneSystem (GameplayScene.test.ts lines 801-805):
`(Math.sin(x * 1.5 + seed) * Math.cos(y * 1.3 + seed * 0.7) + 1) * 0.5`.
The seed, an instance field in the source, is passed explicitly. -/
noncomputable def wzNoise (seed x y : ℝ) : ℝ :=
  (Real.sin (x * 1.5 + seed) * Real.cos (y * 1.3 + seed * 0.7) + 1) * 0.5

/-- A rectangle as used for water areas (Phaser.Geom.Rectangle: `x`/`y` is the
top-left corner, `right = x + width`, `bottom = y + height`). -/
structure WRect where
  x : ℚ
  y : ℚ
  width : ℚ
  height : ℚ
deriving DecidableEq

/-- A terrain block sprite as seen by the water generator: center position
`x`/`y` plus `width` and `height`. -/
structure TerrainSprite where
  x : ℚ
  y : ℚ
  width : ℚ
  height : ℚ
deriving DecidableEq

/-- Safety margin in pixels (`margin`, GameplayScene.test.ts line 489). -/
def margin : ℚ := 5

/-- The `adjustWaterForTerrain` method (GameplayScene.test.ts lines 485-520):
fold over the terrain blocks updating `lowestY` (initially `waterArea.y`) for
every block that overlaps the water horizontally and whose top edge is above
the current `lowestY`; afterwards, if `lowestY` is above the water bottom and
the implied height exceeds 30, overwrite the height field of the rectangle
(the `y` field is left unchanged by the source). -/
def adjustWaterForTerrain (blocks : List TerrainSprite) (waterArea : WRect) : WRect :=
  let lowestY := blocks.foldl
    (fun ly s =>
      if s.x + s.width / 2 ≥ waterArea.x ∧ s.x - s.width / 2 ≤ waterArea.x + waterArea.width then
        if s.y - s.height / 2 < ly then s.y - s.height / 2 - margin else ly
      else ly)
    waterArea.y
  if lowestY < waterArea.y + waterArea.height then
    let newHeight := waterArea.y + waterArea.height - lowestY
    if newHeight > 30 then { waterArea with height := newHeight } else waterArea
  else waterArea

/-- Vertical overlap depth between a water rectangle and a terrain block:
the length of the intersection of their vertical extents. -/
def verticalOverlap (r : WRect) (s : TerrainSprite) : ℚ :=
  min (r.y + r.height) (s.y + s.height / 2) - max r.y (s.y - s.height / 2)

/-- Whether a block overlaps the water area horizontally, as tested by the
adjustment loop (GameplayScene.test.ts lines 502-505). -/
def horizOverlap (r : WRect) (s : TerrainSprite) : Prop :=
  s.x + s.width / 2 ≥ r.x ∧ s.x - s.width / 2 ≤ r.x + r.width

/-- Example water area for the overlap analysis: top-left (0, 100), size
100 by 100, so its vertical extent is 100 to 200. -/
def bugWater : WRect := ⟨0, 100, 100, 100⟩

/-- A 32 by 32 terrain block centered at (50, 136): vertical extent 120 to
152, strictly inside the water area. -/
def bugInside : TerrainSprite := ⟨50, 136, 32, 32⟩

/-- A 32 by 32 terrain block centered at (50, 90): vertical extent 74 to 106,
protruding above the water surface. -/
def bugAbove : TerrainSprite := ⟨50, 90, 32, 32⟩

end WaterZoneSystem

namespace FishingSystem

/-- The fishing states (BackgroundSystem.test.ts lines 210-218). -/
inductive FState
  | IDLE
  | CASTING
  | FISHING
  | WAITING_FOR_BITE
  | BITE
  | REELING
  | CAUGHT
deriving DecidableEq

/-- The kinds of delayed calls the fishing system schedules: the cast
synchronisation call (startCast, line 640), the bite timer (startFishing,
line 672), the catch-window timer (triggerBite, line 720), the reeling timer
(startReeling, line 794), the hook-settle timer (checkHookSettled, line 953)
and the post-catch reset call (catchFish, line 817). -/
inductive TimerKind
  | castSync
  | bite
  | catchWindow
  | reel
  | hookSettle
  | catchReset
deriving DecidableEq

/-- Whether auto-retraction is enabled (`autoRetractEnabled` field,
BackgroundSystem.test.ts line 245; constant true). -/
def autoRetractEnabled : Bool := true

/-- State of the fishing system: the current fishing state, the multiset of
pending (scheduled, not yet fired or cancelled) delayed calls with fresh
numeric handles, the retained timer handles (`fishingTimer`, `catchWindow`,
`hookSettleTimer` fields), the handle counter, and the observable side state
(line active, fish-escaped flag, right-click latch). -/
structure FSys where
  state : FState
  pending : List (ℕ × TimerKind)
  fishingTimer : Option ℕ
  catchWindow : Option ℕ
  hookSettleTimer : Option ℕ
  nextTimer : ℕ
  lineActive : Bool
  fishEscaped : Bool
  rightClickPressed : Bool
deriving DecidableEq

/-- Schedule a delayed call (`scene.time.delayedCall`), returning the new
state and the handle. -/
def schedule (w : FSys) (k : TimerKind) : FSys × ℕ :=
  ({ w with
      pending := w.pending ++ [(w.nextTimer, k)]
      nextTimer := w.nextTimer + 1 },
   w.nextTimer)

/-- Cancel a delayed call by handle (`timer.remove()`). -/
def removeTimer (w : FSys) (id : ℕ) : FSys :=
  { w with pending := w.pending.filter fun p => decide (p.1 ≠ id) }

/-- The `reset` method (BackgroundSystem.test.ts lines 863-892): state to
IDLE, line reset, right-click cleared, then the `fishingTimer` and
`catchWindow` timers removed and their fields cleared. The source does not
touch `hookSettleTimer`. -/
def reset (w : FSys) : FSys :=
  let w1 := { w with state := FState.IDLE, lineActive := false, rightClickPressed := false }
  let w2 := match w.fishingTimer with
    | some id => { removeTimer w1 id with fishingTimer := none }
    | none => w1
  match w.catchWindow with
  | some id => { removeTimer w2 id with catchWindow := none }
  | none => w2

/-- The `startCast` method (BackgroundSystem.test.ts lines 602-658): state to
CASTING, any existing hook-settle timer cancelled, then a 100 ms
synchronisation delayed call scheduled whose handle is not retained. -/
def startCast (w : FSys) : FSys :=
  let w1 := { w with state := FState.CASTING }
  let w2 := match w.hookSettleTimer with
    | some id => { removeTimer w1 id with hookSettleTimer := none }
    | none => w1
  (schedule w2 TimerKind.castSync).1

/-- The `startFishing` method (BackgroundSystem.test.ts lines 663-679):
guarded on CASTING; moves to WAITING_FOR_BITE and schedules the bite timer
into `fishingTimer`. -/
def startFishing (w : FSys) : FSys :=
  if w.state = FState.CASTING then
    let p := schedule { w with state := FState.WAITING_FOR_BITE } TimerKind.bite
    { p.1 with fishingTimer := some p.2 }
  else w

/-- The `triggerBite` method (BackgroundSystem.test.ts lines 684-735):
guarded on WAITING_FOR_BITE; moves to BITE and schedules the catch-window
timer into `catchWindow`. -/
def triggerBite (w : FSys) : FSys :=
  if w.state = FState.WAITING_FOR_BITE then
    let p := schedule { w with state := FState.BITE } TimerKind.catchWindow
    { p.1 with catchWindow := some p.2 }
  else w

/-- The `startReeling` method (BackgroundSystem.test.ts lines 768-801):
guarded on BITE; moves to REELING, removes the catch-window timer and
schedules the reeling timer into `fishingTimer`. -/
def startReeling (w : FSys) : FSys :=
  if w.state = FState.BITE then
    let w1 := { w with state := FState.REELING }
    let w2 := match w.catchWindow with
      | some id => { removeTimer w1 id with catchWindow := none }
      | none => w1
    let p := schedule w2 TimerKind.reel
    { p.1 with fishingTimer := some p.2 }
  else w

/-- The `catchFish` method (BackgroundSystem.test.ts lines 806-829): guarded
on REELING; moves to CAUGHT and schedules the reset delayed call whose handle
is not retained. -/
def catchFish (w : FSys) : FSys :=
  if w.state = FState.REELING then
    (schedule { w with state := FState.CAUGHT } TimerKind.catchReset).1
  else w

/-- Hook-related readings from the physics engine at a given instant: whether
the hook body touches ground, whether its displacement since the last frame is
below `hookMovementThreshold`, and whether the hook is inside the water area. -/
structure HookEnv where
  touchingDown : Bool
  movementSmall : Bool
  inWater : Bool
deriving DecidableEq

/-- The `checkHookSettled` method (BackgroundSystem.test.ts lines 918-985):
when the hook touches ground with small movement and no hook-settle timer is
pending, schedule one unless the hook is in water; otherwise cancel a pending
hook-settle timer when the hook is moving again or airborne. -/
def checkHookSettled (w : FSys) (e : HookEnv) : FSys :=
  if e.touchingDown && e.movementSmall then
    match w.hookSettleTimer with
    | some _ => w
    | none =>
        if e.inWater then w
        else
          let p := schedule w TimerKind.hookSettle
          { p.1 with hookSettleTimer := some p.2 }
  else
    match w.hookSettleTimer with
    | some id =>
        if !e.touchingDown || !e.movementSmall then
          { removeTimer w id with hookSettleTimer := none }
        else w
    | none => w

/-- The callback bodies of the delayed calls, evaluated against the hook
environment at firing time: the cast-sync call launches the line (lines
640-653); the bite timer calls `triggerBite` (line 673); the catch-window
timer resets with `fishEscaped` when still in BITE (lines 720-727); the
reeling timer calls `catchFish` (line 795); the hook-settle callback clears
its handle and auto-retracts by `reset` when the hook is grounded outside
water (lines 953-971); the post-catch call resets and hands the item to the
external callback (lines 817-824). -/
def fireCallback (w : FSys) (k : TimerKind) (e : HookEnv) : FSys :=
  match k with
  | TimerKind.castSync => { w with lineActive := true }
  | TimerKind.bite => triggerBite w
  | TimerKind.catchWindow =>
      if w.state = FState.BITE then reset { w with fishEscaped := true } else w
  | TimerKind.reel => catchFish w
  | TimerKind.hookSettle =>
      if !e.touchingDown then { w with hookSettleTimer := none }
      else
        let w1 := if !e.inWater && autoRetractEnabled then reset w else w
        { w1 with hookSettleTimer := none }
  | TimerKind.catchReset => reset w

/-- Firing of a scheduled delayed call by the engine timer: a no-op if the
handle was cancelled, otherwise the callback body runs (and the call leaves
the pending set). -/
def fire (w : FSys) (id : ℕ) (e : HookEnv) : FSys :=
  match w.pending.find? (fun p => decide (p.1 = id)) with
  | some p => fireCallback (removeTimer w id) p.2 e
  | none => w

/-- Per-frame environment for `update`: flags selecting which external
collaborator call throws this frame (rod update, line update, the water
membership check inside the inner try block, or the tail of the frame such as
the bite-indicator repositioning), and the frame inputs. -/
structure UpdEnv where
  throwRodUpdate : Bool
  throwLineUpdate : Bool
  throwWaterCheck : Bool
  throwIndicator : Bool
  castInput : Bool
  reelInput : Bool
  hookEnv : HookEnv
deriving DecidableEq

/-- Input handling of the `update` method (BackgroundSystem.test.ts lines
465-479): a cast input in IDLE starts a cast and clears the right-click
latch; a reel input in BITE starts reeling and clears the latch. -/
def updateInputs (w : FSys) (e : UpdEnv) : FSys :=
  let w1 :=
    if w.state = FState.IDLE ∧ (e.castInput ∨ w.rightClickPressed = true) then
      { startCast w with rightClickPressed := false }
    else w
  if w1.state = FState.BITE ∧ (e.reelInput ∨ w1.rightClickPressed = true) then
    { startReeling w1 with rightClickPressed := false }
  else w1

/-- Water detection of the `update` method (BackgroundSystem.test.ts lines
481-497), active while CASTING with an active line: entering water starts
fishing, otherwise the hook-settle check runs; the check sits in an inner try
block whose catch calls `reset` and lets the frame continue (the Boolean
records whether the modelled exception was thrown). -/
def updateWater (w2 : FSys) (e : UpdEnv) : FSys × Bool :=
  if w2.state = FState.CASTING ∧ w2.lineActive = true then
    if e.throwWaterCheck then (reset w2, true)
    else if e.hookEnv.inWater then (startFishing w2, false)
    else (checkHookSettled w2 e.hookEnv, false)
  else (w2, false)

/-- The `update` method (BackgroundSystem.test.ts lines 437-509), returning
the resulting state together with a flag recording whether any modelled
exception was thrown during the frame. The whole body sits in a try block
whose catch calls `reset`: a throw in the rod update, the line update or the
frame tail (bite-indicator repositioning) reaches the top-level catch. -/
def update (w : FSys) (e : UpdEnv) : FSys × Bool :=
  if e.throwRodUpdate then (reset w, true)
  else if e.throwLineUpdate then (reset w, true)
  else
    let inner := updateWater (updateInputs w e) e
    if e.throwIndicator then (reset inner.1, true) else inner

/-- The `getState` accessor (BackgroundSystem.test.ts lines 904-906). -/
def getState (w : FSys) : FState := w.state

/-- The `determineCaughtItem` method (BackgroundSystem.test.ts lines
834-858), with the two `Math.random()` draws passed as arguments. -/
def determineCaughtItem (rand fishRand : ℚ) : String :=
  if rand < 0.1 then "treasure"
  else if rand < 0.3 then "junk"
  else if fishRand < 0.6 then "common_fish"
  else if fishRand < 0.9 then "uncommon_fish"
  else "rare_fish"

/-- The `calculateCastDirection` method (BackgroundSystem.test.ts lines
514-554): direction from rod tip to pointer, normalised when the distance is
positive, facing-dependent fallback otherwise; a downward component above 0.7
is capped at 0.7 and the vector re-normalised. -/
noncomputable def calculateCastDirection
    (tipX tipY mouseX mouseY : ℝ) (facingRight : Bool) : ℝ × ℝ :=
  let dx := mouseX - tipX
  let dy := mouseY - tipY
  let dist := Real.sqrt (dx ^ 2 + dy ^ 2)
  let nx := if 0 < dist then dx / dist else if facingRight then 1 else -1
  let ny := if 0 < dist then dy / dist else 0.2
  if 0.7 < ny then
    (nx / Real.sqrt (nx ^ 2 + (0.7 : ℝ) ^ 2), 0.7 / Real.sqrt (nx ^ 2 + (0.7 : ℝ) ^ 2))
  else (nx, ny)

/-- Initial state as built by the constructor. -/
def initFSys : FSys :=
  { state := FState.IDLE
    pending := []
    fishingTimer := none
    catchWindow := none
    hookSettleTimer := none
    nextTimer := 0
    lineActive := false
    fishEscaped := false
    rightClickPressed := false }

/-- Hook environment of a hook resting on dry terrain: touching ground, not
moving, not in water. -/
def envDry : HookEnv := ⟨true, true, false⟩

/-- Trace state 1: the player casts. -/
def demoF1 : FSys := startCast initFSys

/-- Trace state 2: the cast-sync delayed call (handle 0) fires and launches
the line. -/
def demoF2 : FSys := fire demoF1 0 envDry

/-- Trace state 3: the hook lands on dry terrain; `checkHookSettled`
schedules the hook-settle timer (handle 1). -/
def demoF3 : FSys := checkHookSettled demoF2 envDry

/-- Trace state 4: the hook slides into water, `update` detects it and calls
`startFishing`: state WAITING_FOR_BITE with the bite timer (handle 2)
pending. The hook-settle timer is still pending. -/
def demoF4 : FSys := startFishing demoF3

/-- Trace state 5: the stale hook-settle callback fires while the hook reads
as grounded and outside the water rectangle. -/
def demoF5 : FSys := fire demoF4 1 envDry

end FishingSystem

/-! Theorems. Helper lemmas come first, then one theorem per claim (with
counterexamples and witnesses where applicable). -/

namespace TerrainSystem

/-- Helper bound: the product of a sine and a cosine has absolute value at
most one. -/
theorem abs_sin_mul_cos_le_one (a b : ℝ) : |Real.sin a * Real.cos b| ≤ 1 := by
  rw [abs_mul]
  have h1 : |Real.sin a| ≤ 1 := Real.abs_sin_le_one a
  have h2 : |Real.cos b| ≤ 1 := Real.abs_cos_le_one b
  exact mul_le_one₀ h1 (abs_nonneg _) h2

/-- Helper bound: the terrain noise function lies between minus one and one. -/
theorem noise_bounds (x y seed : ℝ) : -1 ≤ noise x y seed ∧ noise x y seed ≤ 1 := by
  have h := abs_le.mp (abs_sin_mul_cos_le_one (x + seed) (y + seed * 0.7))
  unfold noise
  exact ⟨h.1, h.2⟩

/-- C3 counterexample: at `a = -1`, `b = 0`, `seed = 0` the terrain noise
function evaluates to minus the sine of one, a negative number, so its value
does not lie in the unit interval claimed by the specification. -/
theorem noise_unit_range_counterexample :
    ¬(0 ≤ noise (-1) 0 0 ∧ noise (-1) 0 0 ≤ 1) := by
  have hs : 0 < Real.sin 1 :=
    Real.sin_pos_of_pos_of_lt_pi one_pos (by linarith [Real.pi_gt_three])
  have hval : noise (-1) 0 0 = -Real.sin 1 := by
    simp [noise, Real.sin_neg]
  rw [hval]
  rintro ⟨h0, _⟩
  linarith

/-- C3 amended: the terrain noise function `noise(a, b, seed)` is a
deterministic function of its arguments (it is a pure function by
construction) and returns a value in the interval from minus one to one, not
the unit interval; the caller `generateChunk` normalises it into the unit
interval as `(noise + 1) / 2`. The enhanced noise of the older revision is
bounded by three halves in absolute value, and the two-argument water-zone
noise does lie in the unit interval. -/
theorem noise_range (a b s : ℝ) :
    (-1 ≤ noise a b s ∧ noise a b s ≤ 1) ∧
    (0 ≤ (noise a b s + 1) / 2 ∧ (noise a b s + 1) / 2 ≤ 1) ∧
    |noiseV2 a b s| ≤ 1.5 ∧
    (0 ≤ WaterZoneSystem.wzNoise s a b ∧ WaterZoneSystem.wzNoise s a b ≤ 1) := by
  have h1 := noise_bounds a b s
  refine ⟨h1, ⟨by linarith [h1.1], by linarith [h1.2]⟩, ?_, ?_⟩
  · have ha := abs_sin_mul_cos_le_one (a + s) (b + s * 0.7)
    have hb := abs_sin_mul_cos_le_one (a * 0.5 + s * 0.3) (b * 0.5 + s * 0.2)
    unfold noiseV2
    calc |Real.sin (a + s) * Real.cos (b + s * 0.7) +
            Real.sin (a * 0.5 + s * 0.3) * Real.cos (b * 0.5 + s * 0.2) * 0.5|
        ≤ |Real.sin (a + s) * Real.cos (b + s * 0.7)| +
            |Real.sin (a * 0.5 + s * 0.3) * Real.cos (b * 0.5 + s * 0.2) * 0.5| :=
          abs_add _ _
      _ ≤ 1.5 := by
          rw [abs_mul (Real.sin (a * 0.5 + s * 0.3) * Real.cos (b * 0.5 + s * 0.2)) 0.5]
          have : |(0.5 : ℝ)| = 0.5 := by norm_num
          rw [this]
          nlinarith [hb, abs_nonneg (Real.sin (a * 0.5 + s * 0.3) * Real.cos (b * 0.5 + s * 0.2))]
  · have h2 := abs_le.mp (abs_sin_mul_cos_le_one (a * 1.5 + s) (b * 1.3 + s * 0.7))
    unfold WaterZoneSystem.wzNoise
    constructor
    · nlinarith [h2.1]
    · nlinarith [h2.2]

/-- C4: every terrain column built by `generateChunk` has height at least
three blocks, for every seed, chunk index and column slot: the normalised
noise is nonnegative, so the floor of `3 + normalizedNoise * 6` is at least
three. -/
theorem generateChunk_min_column_height (seed : ℝ) (k : ℤ) (i : ℕ) :
    3 ≤ columnHeight seed (columnX k i) := by
  unfold columnHeight
  rw [Int.le_floor]
  have h := (noise_bounds (columnX k i * 0.01) 0 seed).1
  unfold normalizedNoise
  push_cast
  linarith

/-- Helper evaluation: the center chunk of camera position 0 is 0. -/
theorem centerChunkIndex_zero : centerChunkIndex 0 = 0 := by
  norm_num [centerChunkIndex, chunkWidth, chunkSize, tileSize]

/-- Helper evaluation: the center chunk of camera position 1024 is 2. -/
theorem centerChunkIndex_1024 : centerChunkIndex 1024 = 2 := by
  norm_num [centerChunkIndex, chunkWidth, chunkSize, tileSize]

/-- Helper evaluation: after the first update at camera position 0 the
loaded-chunk set is the window around chunk 0. -/
theorem demoTS1_loadedChunks : demoTS1.loadedChunks = [-3, -2, -1, 0, 1, 2, 3] := by
  simp only [demoTS1, update, getVisibleChunkIndices, centerChunkIndex_zero]
  decide

/-- Helper evaluation: after the first update the recorded center is 0. -/
theorem demoTS1_lastCenter : demoTS1.lastCenter = 0 := by
  simp only [demoTS1, update, getVisibleChunkIndices, centerChunkIndex_zero]
  decide

/-- Helper evaluation: the loaded-chunk set after the second update at camera
position 1024 still contains chunks -3, -2 beyond the visible window. -/
theorem demoTS2_loadedChunks :
    demoTS2.loadedChunks = [-3, -2, -1, 0, 1, 2, 3, 4, 5] := by
  simp only [demoTS2, update, getVisibleChunkIndices, centerChunkIndex_1024,
    demoTS1_loadedChunks, demoTS1_lastCenter]
  decide

/-- C5 counterexample: starting from a fresh system, an update at camera 0
followed by a non-skipped update at camera 1024 (center chunk 2, movement 2
chunks, at the update threshold) leaves chunk -3 loaded although the visible
window around chunk 2 is only chunks -1 to 5: the loaded set is not exactly
the window, because eviction only removes chunks farther than `maxDistance`
(5), which is larger than the load radius (3). -/
theorem update_window_counterexample :
    demoTS1.loadedChunks ≠ [] ∧
    updateThreshold ≤ |centerChunkIndex 1024 - demoTS1.lastCenter| ∧
    (-3 : ℤ) ∈ demoTS2.loadedChunks ∧
    ¬(centerChunkIndex 1024 - chunksToLoad ≤ -3 ∧
        -3 ≤ centerChunkIndex 1024 + chunksToLoad) := by
  rw [demoTS1_loadedChunks, demoTS1_lastCenter, demoTS2_loadedChunks,
    centerChunkIndex_1024]
  refine ⟨by decide, by decide, by decide, by decide⟩

/-- C5 amended: after any `update(cameraX)` call that is not skipped by the
movement threshold, the loaded-chunk set contains the whole visible window
from `centerChunk - 3` to `centerChunk + 3` and is contained in the eviction
window of radius `maxDistance = 5` around the center; it need not equal the
visible window exactly. -/
theorem update_window_bounds (hf : ℤ → ℕ → ℕ) (wh : ℤ) (ts : TSys) (cameraX : ℚ)
    (h : ts.loadedChunks = [] ∨
      updateThreshold ≤ |centerChunkIndex cameraX - ts.lastCenter|) :
    (∀ i : ℤ, centerChunkIndex cameraX - chunksToLoad ≤ i →
        i ≤ centerChunkIndex cameraX + chunksToLoad →
        i ∈ (update hf wh ts cameraX).loadedChunks) ∧
    (∀ i ∈ (update hf wh ts cameraX).loadedChunks,
        |i - centerChunkIndex cameraX| ≤ maxDistance) := by
  have hskip : ¬(ts.loadedChunks ≠ [] ∧
      |centerChunkIndex cameraX - ts.lastCenter| < updateThreshold) := by
    rcases h with h | h
    · intro hh
      exact hh.1 h
    · intro hh
      exact absurd hh.2 (not_lt.mpr h)
  have hctl : chunksToLoad = 3 := rfl
  have hmd : maxDistance = 5 := rfl
  constructor
  · intro i h1 h2
    rw [hctl] at h1 h2
    have habs : |i - centerChunkIndex cameraX| ≤ maxDistance := by
      rw [hmd, abs_le]
      omega
    simp only [update, if_neg hskip]
    apply List.mem_filter.mpr
    refine ⟨?_, by simpa using not_lt.mpr habs⟩
    rcases Decidable.em (i ∈ ts.loadedChunks) with hi | hi
    · exact List.mem_append.mpr (Or.inl hi)
    · refine List.mem_append.mpr (Or.inr (List.mem_filter.mpr ⟨?_, by simpa using hi⟩))
      unfold getVisibleChunkIndices
      have heq : centerChunkIndex cameraX - chunksToLoad +
          (((i - (centerChunkIndex cameraX - chunksToLoad)).toNat : ℕ) : ℤ) = i := by
        rw [hctl]
        omega
      have hrange : (i - (centerChunkIndex cameraX - chunksToLoad)).toNat ∈ List.range 7 := by
        apply List.mem_range.mpr
        rw [hctl]
        omega
      rw [← heq]
      exact List.mem_map_of_mem _ hrange
  · intro i hi
    simp only [update, if_neg hskip] at hi
    have hmem := List.mem_filter.mp hi
    have h3 : ¬maxDistance < |i - centerChunkIndex cameraX| := by simpa using hmem.2
    exact not_lt.mp h3

/-- Helper: cache lookup after a store at the same key. -/
theorem cacheGet_cacheSet_self (c : List (ℤ × List Block)) (k : ℤ) (v : List Block) :
    cacheGet (cacheSet c k v) k = some v := by
  induction c with
  | nil => simp [cacheSet, cacheGet]
  | cons hd tl ih =>
    obtain ⟨kk, vv⟩ := hd
    by_cases h : kk = k
    · simp [cacheSet, cacheGet, h]
    · simp [cacheSet, cacheGet, h, ih]

/-- Helper: blocks of one column carry the column position and identities at
least the starting identity. -/
theorem mem_columnBlocks (wh x : ℤ) (s h : ℕ) (b : Block)
    (hb : b ∈ columnBlocks wh x s h) : b.x = x ∧ s ≤ b.bid := by
  unfold columnBlocks at hb
  obtain ⟨i, _, rfl⟩ := List.mem_map.mp hb
  exact ⟨rfl, Nat.le_add_right _ _⟩

/-- Helper: blocks produced from a list of column specifications sit at one of
the specified positions and have identities at least the starting identity. -/
theorem mem_freshAux (wh : ℤ) (specs : List (ℤ × ℕ)) (s : ℕ) (b : Block)
    (hb : b ∈ freshAux wh specs s) :
    (∃ p ∈ specs, b.x = p.1) ∧ s ≤ b.bid := by
  induction specs generalizing s with
  | nil => simp [freshAux] at hb
  | cons hd tl ih =>
    obtain ⟨x, h⟩ := hd
    rcases List.mem_append.mp hb with hcol | htail
    · obtain ⟨hx, hid⟩ := mem_columnBlocks wh x s h b hcol
      exact ⟨⟨(x, h), List.mem_cons_self _ _, hx⟩, hid⟩
    · obtain ⟨⟨p, hp, hx⟩, hid⟩ := ih _ htail
      exact ⟨⟨p, List.mem_cons_of_mem _ hp, hx⟩, le_trans (Nat.le_add_right _ _) hid⟩

/-- Helper: every column position of a chunk lies in the x-range of that
chunk. -/
theorem colSpecs_fst_range (hf : ℤ → ℕ → ℕ) (k : ℤ) (p : ℤ × ℕ)
    (hp : p ∈ colSpecs hf k) :
    k * chunkWidth ≤ p.1 ∧ p.1 < k * chunkWidth + chunkWidth := by
  unfold colSpecs at hp
  obtain ⟨i, hi, rfl⟩ := List.mem_map.mp hp
  have hi16 : i < 16 := by
    have := List.mem_range.mp hi
    simpa [chunkSize] using this
  have hcw : chunkWidth = 512 := rfl
  have hts : tileSize = 32 := rfl
  rw [hcw, hts]
  constructor <;> simp only [] <;> omega

/-- Helper: every block of a freshly generated chunk lies in the x-range of
that chunk. -/
theorem freshBlocks_inChunk (hf : ℤ → ℕ → ℕ) (wh k : ℤ) (s : ℕ) (b : Block)
    (hb : b ∈ freshBlocks hf wh k s) : inChunkB k b = true := by
  obtain ⟨⟨p, hp, hx⟩, _⟩ := mem_freshAux wh (colSpecs hf k) s b hb
  have hr := colSpecs_fst_range hf k p hp
  simp only [inChunkB, decide_eq_true_eq]
  rw [hx]
  exact hr

/-- Helper: every block of a freshly generated chunk has identity at least the
starting identity. -/
theorem freshBlocks_id_ge (hf : ℤ → ℕ → ℕ) (wh k : ℤ) (s : ℕ) (b : Block)
    (hb : b ∈ freshBlocks hf wh k s) : s ≤ b.bid :=
  (mem_freshAux wh (colSpecs hf k) s b hb).2

/-- Helper: a freshly generated chunk is non-empty as soon as its first column
has positive height (the source guarantees height at least three). -/
theorem freshBlocks_ne_nil (hf : ℤ → ℕ → ℕ) (wh k : ℤ) (s : ℕ)
    (hpos : 1 ≤ hf k 0) : freshBlocks hf wh k s ≠ [] := by
  have h16 : List.range 16 = 0 :: (List.range 15).map Nat.succ := by decide
  intro hcontra
  unfold freshBlocks colSpecs at hcontra
  rw [show chunkSize = 16 from rfl, h16] at hcontra
  simp only [List.map_cons, freshAux] at hcontra
  rcases List.append_eq_nil.mp hcontra with ⟨hcol, _⟩
  unfold columnBlocks at hcol
  rw [List.map_eq_nil_iff, List.range_eq_nil] at hcol
  omega

/-- C6: a chunk that has been generated and then unloaded is restored from
the cache by the next `generateChunk` call: the cache holds exactly the
generated blocks, and the call appends exactly those block objects back to
the group (same objects, hence same count and positions), leaving the noise
call counter, the identity counter and the cache untouched; the group equals
the group right after the original generation. -/
theorem generateChunk_cache_restore (hf : ℤ → ℕ → ℕ) (wh k : ℤ)
    (w0 w1 w2 : TWorld)
    (hcache : cacheGet w0.chunkCache k = none)
    (hgroup : ∀ b ∈ w0.terrainGroup, inChunkB k b = false)
    (hids : ∀ b ∈ w0.terrainGroup, b.bid < w0.nextId)
    (hpos : 1 ≤ hf k 0)
    (hw1 : w1 = generateChunk hf wh w0 k)
    (hw2 : w2 = unloadChunk w1 k) :
    cacheGet w2.chunkCache k = some (freshBlocks hf wh k w0.nextId) ∧
    generateChunk hf wh w2 k
      = { w2 with terrainGroup := w2.terrainGroup ++ freshBlocks hf wh k w0.nextId } ∧
    (generateChunk hf wh w2 k).terrainGroup = w1.terrainGroup := by
  have hFne : freshBlocks hf wh k w0.nextId ≠ [] := freshBlocks_ne_nil hf wh k _ hpos
  have hw1eq : w1 = { terrainGroup := w0.terrainGroup ++ freshBlocks hf wh k w0.nextId
                      chunkCache := cacheSet w0.chunkCache k (freshBlocks hf wh k w0.nextId)
                      noiseCalls := w0.noiseCalls + chunkSize
                      nextId := w0.nextId + specsHeight (colSpecs hf k) } := by
    rw [hw1]
    unfold generateChunk
    rw [hcache]
    rfl
  have hfilF : (freshBlocks hf wh k w0.nextId).filter (inChunkB k)
      = freshBlocks hf wh k w0.nextId :=
    List.filter_eq_self.mpr fun b hb => freshBlocks_inChunk hf wh k _ b hb
  have hfilG : w0.terrainGroup.filter (inChunkB k) = [] :=
    List.filter_eq_nil_iff.mpr fun b hb => by rw [hgroup b hb]; exact Bool.false_ne_true
  have hfilFneg : (freshBlocks hf wh k w0.nextId).filter (fun b => !inChunkB k b) = [] :=
    List.filter_eq_nil_iff.mpr fun b hb => by
      rw [freshBlocks_inChunk hf wh k _ b hb]
      exact Bool.false_ne_true
  have hfilGneg : w0.terrainGroup.filter (fun b => !inChunkB k b) = w0.terrainGroup :=
    List.filter_eq_self.mpr fun b hb => by rw [hgroup b hb]; rfl
  have htoRemove : (w0.terrainGroup ++ freshBlocks hf wh k w0.nextId).filter (inChunkB k)
      = freshBlocks hf wh k w0.nextId := by
    rw [List.filter_append, hfilG, hfilF, List.nil_append]
  have hw2eq : w2 = { terrainGroup := w0.terrainGroup
                      chunkCache := cacheSet w0.chunkCache k (freshBlocks hf wh k w0.nextId)
                      noiseCalls := w0.noiseCalls + chunkSize
                      nextId := w0.nextId + specsHeight (colSpecs hf k) } := by
    rw [hw2, hw1eq]
    unfold unloadChunk
    simp only [htoRemove]
    rw [if_neg hFne]
    simp only [List.filter_append, hfilGneg, hfilFneg, List.append_nil,
      cacheGet_cacheSet_self]
  have hget2 : cacheGet w2.chunkCache k = some (freshBlocks hf wh k w0.nextId) := by
    rw [hw2eq]
    exact cacheGet_cacheSet_self _ _ _
  have hdisj : (freshBlocks hf wh k w0.nextId).filter
      (fun b => decide (b ∉ w2.terrainGroup)) = freshBlocks hf wh k w0.nextId := by
    apply List.filter_eq_self.mpr
    intro b hb
    have hid := freshBlocks_id_ge hf wh k _ b hb
    simp only [decide_eq_true_eq]
    intro hmem
    rw [hw2eq] at hmem
    exact absurd (hids b hmem) (by omega)
  have hgen2 : generateChunk hf wh w2 k
      = { w2 with terrainGroup := w2.terrainGroup ++ freshBlocks hf wh k w0.nextId } := by
    unfold generateChunk
    rw [hget2]
    show (if freshBlocks hf wh k w0.nextId = [] then regenChunk hf wh w2 k
        else { w2 with
            terrainGroup := w2.terrainGroup ++
              (freshBlocks hf wh k w0.nextId).filter fun b => decide (b ∉ w2.terrainGroup) })
      = _
    rw [if_neg hFne, hdisj]
  refine ⟨hget2, hgen2, ?_⟩
  rw [hgen2, hw1eq, hw2eq]

/-- C6 witness: the cache-restore theorem applied to the empty world, chunk
0 and the constant height map of three blocks per column. -/
theorem generateChunk_cache_restore_witness :
    cacheGet (unloadChunk (generateChunk demoHeight 600 ⟨[], [], 0, 0⟩ 0) 0).chunkCache 0
      = some (freshBlocks demoHeight 600 0 0) ∧
    generateChunk demoHeight 600 (unloadChunk (generateChunk demoHeight 600 ⟨[], [], 0, 0⟩ 0) 0) 0
      = { unloadChunk (generateChunk demoHeight 600 ⟨[], [], 0, 0⟩ 0) 0 with
          terrainGroup :=
            (unloadChunk (generateChunk demoHeight 600 ⟨[], [], 0, 0⟩ 0) 0).terrainGroup
              ++ freshBlocks demoHeight 600 0 0 } ∧
    (generateChunk demoHeight 600 (unloadChunk (generateChunk demoHeight 600 ⟨[], [], 0, 0⟩ 0) 0) 0).terrainGroup
      = (generateChunk demoHeight 600 ⟨[], [], 0, 0⟩ 0).terrainGroup :=
  generateChunk_cache_restore demoHeight 600 0 ⟨[], [], 0, 0⟩ _ _
    rfl (by simp) (by simp) (by decide) rfl rfl

/-- C5 witness: from the fresh state the first-update hypothesis holds and
the amended theorem yields membership of chunk 0 in the loaded set. -/
theorem update_window_bounds_witness :
    (initTSys.loadedChunks = [] ∨
      updateThreshold ≤ |centerChunkIndex 0 - initTSys.lastCenter|) ∧
    (0 : ℤ) ∈ (update demoHeight 600 initTSys 0).loadedChunks :=
  ⟨Or.inl rfl,
   (update_window_bounds demoHeight 600 initTSys 0 (Or.inl rfl)).1 0
     (by rw [centerChunkIndex_zero]; norm_num [chunksToLoad])
     (by rw [centerChunkIndex_zero]; norm_num [chunksToLoad])⟩

end TerrainSystem

namespace WaterZoneSystem

/-- Helper evaluation: a terrain block strictly inside the water area is
ignored by the adjustment, which returns the rectangle unchanged. -/
theorem adjust_bugInside_eval :
    adjustWaterForTerrain [bugInside] bugWater = bugWater := by
  norm_num [adjustWaterForTerrain, bugInside, bugWater, margin]

/-- Helper evaluation: for a block protruding above the water surface the
adjustment overwrites the height with `bottom - (blockTop - margin)` while
leaving `y` unchanged, so the rectangle grows downward. -/
theorem adjust_bugAbove_eval :
    adjustWaterForTerrain [bugAbove] bugWater = ⟨0, 100, 100, 131⟩ := by
  norm_num [adjustWaterForTerrain, bugAbove, bugWater, margin]

/-- C1: the water-terrain adjustment does not establish the claimed
non-overlap invariant. A block strictly inside the water area (vertical
extent 120 to 152 inside 100 to 200) leaves the rectangle unchanged, with 32
pixels of vertical overlap; a block protruding above the surface (top edge
74) makes the adjustment keep the top at 100 and grow the height from 100 to
131 (the bottom moves from 200 down to 231), leaving 6 pixels of overlap.
Both overlaps exceed the 5 pixel margin, and the top boundary is never
raised. -/
theorem adjustWaterForTerrain_overlap_bug :
    (adjustWaterForTerrain [bugInside] bugWater = bugWater ∧
      horizOverlap bugWater bugInside ∧
      verticalOverlap (adjustWaterForTerrain [bugInside] bugWater) bugInside = 32) ∧
    (horizOverlap bugWater bugAbove ∧
      (adjustWaterForTerrain [bugAbove] bugWater).y = bugWater.y ∧
      (adjustWaterForTerrain [bugAbove] bugWater).height = 131 ∧
      bugWater.height < (adjustWaterForTerrain [bugAbove] bugWater).height ∧
      verticalOverlap (adjustWaterForTerrain [bugAbove] bugWater) bugAbove = 6) ∧
    margin < 6 := by
  rw [adjust_bugInside_eval, adjust_bugAbove_eval]
  norm_num [horizOverlap, verticalOverlap, bugInside, bugAbove, bugWater, margin]

end WaterZoneSystem

namespace FishingSystem

/-- C7: the catch distribution of `determineCaughtItem` is exactly the bands
of the claim: treasure below one tenth, junk between one tenth and three
tenths, and otherwise a fish whose tier is fixed by the second draw (common
below six tenths, uncommon between six and nine tenths, rare above). -/
theorem determineCaughtItem_bands (r f : ℚ) :
    (determineCaughtItem r f = "treasure" ↔ r < 0.1) ∧
    (determineCaughtItem r f = "junk" ↔ 0.1 ≤ r ∧ r < 0.3) ∧
    (determineCaughtItem r f = "common_fish" ↔ 0.3 ≤ r ∧ f < 0.6) ∧
    (determineCaughtItem r f = "uncommon_fish" ↔ 0.3 ≤ r ∧ 0.6 ≤ f ∧ f < 0.9) ∧
    (determineCaughtItem r f = "rare_fish" ↔ 0.3 ≤ r ∧ 0.9 ≤ f) := by
  unfold determineCaughtItem
  split_ifs with h1 h2 h3 h4
  · refine ⟨iff_of_true rfl h1, ?_, ?_, ?_, ?_⟩
    · exact iff_of_false (by decide) fun hh => absurd h1 (not_lt.mpr hh.1)
    · exact iff_of_false (by decide)
        fun hh => absurd h1 (not_lt.mpr (le_trans (by norm_num) hh.1))
    · exact iff_of_false (by decide)
        fun hh => absurd h1 (not_lt.mpr (le_trans (by norm_num) hh.1))
    · exact iff_of_false (by decide)
        fun hh => absurd h1 (not_lt.mpr (le_trans (by norm_num) hh.1))
  · refine ⟨iff_of_false (by decide) h1,
      iff_of_true rfl ⟨not_lt.mp h1, h2⟩, ?_, ?_, ?_⟩
    · exact iff_of_false (by decide) fun hh => absurd h2 (not_lt.mpr hh.1)
    · exact iff_of_false (by decide) fun hh => absurd h2 (not_lt.mpr hh.1)
    · exact iff_of_false (by decide) fun hh => absurd h2 (not_lt.mpr hh.1)
  · refine ⟨iff_of_false (by decide) h1,
      iff_of_false (by decide) fun hh => h2 hh.2,
      iff_of_true rfl ⟨not_lt.mp h2, h3⟩, ?_, ?_⟩
    · exact iff_of_false (by decide) fun hh => absurd h3 (not_lt.mpr hh.2.1)
    · exact iff_of_false (by decide)
        fun hh => absurd h3 (not_lt.mpr (le_trans (by norm_num) hh.2))
  · refine ⟨iff_of_false (by decide) h1,
      iff_of_false (by decide) fun hh => h2 hh.2,
      iff_of_false (by decide) fun hh => h3 hh.2,
      iff_of_true rfl ⟨not_lt.mp h2, not_lt.mp h3, h4⟩, ?_⟩
    exact iff_of_false (by decide) fun hh => absurd h4 (not_lt.mpr hh.2)
  · exact ⟨iff_of_false (by decide) h1,
      iff_of_false (by decide) fun hh => h2 hh.2,
      iff_of_false (by decide) fun hh => h3 hh.2,
      iff_of_false (by decide) fun hh => h4 hh.2.2,
      iff_of_true rfl ⟨not_lt.mp h2, not_lt.mp h4⟩⟩

/-- Helper evaluation: the square root of 25 is 5. -/
theorem sqrt_25 : Real.sqrt 25 = 5 := by
  rw [show (25 : ℝ) = 5 ^ 2 by norm_num]
  exact Real.sqrt_sq (by norm_num)

/-- Helper evaluation: the square root of 0.49 is 0.7. -/
theorem sqrt_049 : Real.sqrt 0.49 = 0.7 := by
  rw [show (0.49 : ℝ) = 0.7 ^ 2 by norm_num]
  exact Real.sqrt_sq (by norm_num)

/-- Helper evaluation: the square root of 49 is 7. -/
theorem sqrt_49 : Real.sqrt 49 = 7 := by
  rw [show (49 : ℝ) = 7 ^ 2 by norm_num]
  exact Real.sqrt_sq (by norm_num)

/-- Helper evaluation: the square root of 100 is 10. -/
theorem sqrt_100 : Real.sqrt 100 = 10 := by
  rw [show (100 : ℝ) = 10 ^ 2 by norm_num]
  exact Real.sqrt_sq (by norm_num)

/-- Helper evaluation: a cast aimed straight down from the rod tip produces
the direction vector pointing straight down with unit y-component. -/
theorem castDirection_straight_down :
    calculateCastDirection 0 0 0 5 true = (0, 1) := by
  simp only [calculateCastDirection]
  norm_num [sqrt_25, sqrt_049, sqrt_49, sqrt_100]

/-- Helper evaluation: when the pointer coincides with the rod tip, the
fallback vector is returned unchanged. -/
theorem castDirection_fallback_eval :
    calculateCastDirection 0 0 0 0 true = (1, 0.2) := by
  simp only [calculateCastDirection]
  norm_num [Real.sqrt_zero]

/-- C8 counterexample: pointing straight down (pointer five pixels below the
tip), the capped vector (0, 0.7) is re-normalised back to (0, 1), so the
downward component of the returned vector exceeds 0.7; moreover, when the
pointer coincides with the tip, the fallback (1, 0.2) is returned, which is
not unit length. -/
theorem castDirection_cap_counterexample :
    (calculateCastDirection 0 0 0 5 true).2 = 1 ∧
    ¬((calculateCastDirection 0 0 0 5 true).2 ≤ 0.7) ∧
    calculateCastDirection 0 0 0 0 true = (1, 0.2) ∧
    (calculateCastDirection 0 0 0 0 true).1 ^ 2 +
        (calculateCastDirection 0 0 0 0 true).2 ^ 2 ≠ 1 := by
  rw [castDirection_straight_down, castDirection_fallback_eval]
  norm_num

/-- C8 amended: whenever the pointer differs from the rod tip,
`calculateCastDirection` returns a unit-length vector whose downward
component is at most 1 (the pre-normalisation cap is 0.7, but the
re-normalisation can raise the component again, up to 1); when the pointer
coincides with the tip it returns the facing-direction default (1, 0.2) or
(-1, 0.2), which is not unit length. -/
theorem calculateCastDirection_unit (tipX tipY mouseX mouseY : ℝ) (facingRight : Bool) :
    (¬(mouseX - tipX = 0 ∧ mouseY - tipY = 0) →
      (calculateCastDirection tipX tipY mouseX mouseY facingRight).1 ^ 2 +
          (calculateCastDirection tipX tipY mouseX mouseY facingRight).2 ^ 2 = 1 ∧
      (calculateCastDirection tipX tipY mouseX mouseY facingRight).2 ≤ 1) ∧
    ((mouseX - tipX = 0 ∧ mouseY - tipY = 0) →
      calculateCastDirection tipX tipY mouseX mouseY facingRight
        = ((if facingRight then 1 else -1), 0.2)) := by
  constructor
  · intro h
    have hpos : 0 < (mouseX - tipX) ^ 2 + (mouseY - tipY) ^ 2 := by
      rcases not_and_or.mp h with hx | hx
      · have h1 : 0 < (mouseX - tipX) ^ 2 :=
          lt_of_le_of_ne (sq_nonneg _) (Ne.symm (pow_ne_zero 2 hx))
        nlinarith [sq_nonneg (mouseY - tipY)]
      · have h1 : 0 < (mouseY - tipY) ^ 2 :=
          lt_of_le_of_ne (sq_nonneg _) (Ne.symm (pow_ne_zero 2 hx))
        nlinarith [sq_nonneg (mouseX - tipX)]
    have hdist : 0 < Real.sqrt ((mouseX - tipX) ^ 2 + (mouseY - tipY) ^ 2) :=
      Real.sqrt_pos.mpr hpos
    have hsq : Real.sqrt ((mouseX - tipX) ^ 2 + (mouseY - tipY) ^ 2) ^ 2
        = (mouseX - tipX) ^ 2 + (mouseY - tipY) ^ 2 := Real.sq_sqrt (le_of_lt hpos)
    simp only [calculateCastDirection, if_pos hdist]
    set L := Real.sqrt ((mouseX - tipX) ^ 2 + (mouseY - tipY) ^ 2) with hL
    have hLne : L ≠ 0 := ne_of_gt hdist
    have hunit : ((mouseX - tipX) / L) ^ 2 + ((mouseY - tipY) / L) ^ 2 = 1 := by
      have hexp : ((mouseX - tipX) / L) ^ 2 + ((mouseY - tipY) / L) ^ 2
          = ((mouseX - tipX) ^ 2 + (mouseY - tipY) ^ 2) / L ^ 2 := by ring
      rw [hexp, hsq, div_self (ne_of_gt hpos)]
    by_cases hcap : (0.7 : ℝ) < (mouseY - tipY) / L
    · rw [if_pos hcap]
      have hMpos : 0 < ((mouseX - tipX) / L) ^ 2 + (0.7 : ℝ) ^ 2 := by
        nlinarith [sq_nonneg ((mouseX - tipX) / L)]
      have hM : 0 < Real.sqrt (((mouseX - tipX) / L) ^ 2 + (0.7 : ℝ) ^ 2) :=
        Real.sqrt_pos.mpr hMpos
      have hMsq : Real.sqrt (((mouseX - tipX) / L) ^ 2 + (0.7 : ℝ) ^ 2) ^ 2
          = ((mouseX - tipX) / L) ^ 2 + (0.7 : ℝ) ^ 2 := Real.sq_sqrt (le_of_lt hMpos)
      set M := Real.sqrt (((mouseX - tipX) / L) ^ 2 + (0.7 : ℝ) ^ 2) with hMdef
      constructor
      · have hexp : ((mouseX - tipX) / L / M) ^ 2 + ((0.7 : ℝ) / M) ^ 2
            = (((mouseX - tipX) / L) ^ 2 + (0.7 : ℝ) ^ 2) / M ^ 2 := by ring
        show ((mouseX - tipX) / L / M) ^ 2 + ((0.7 : ℝ) / M) ^ 2 = 1
        rw [hexp, hMsq, div_self (ne_of_gt hMpos)]
      · show (0.7 : ℝ) / M ≤ 1
        rw [div_le_one hM]
        have hmono : Real.sqrt ((0.7 : ℝ) ^ 2)
            ≤ Real.sqrt (((mouseX - tipX) / L) ^ 2 + (0.7 : ℝ) ^ 2) :=
          Real.sqrt_le_sqrt (by nlinarith [sq_nonneg ((mouseX - tipX) / L)])
        rw [Real.sqrt_sq (by norm_num : (0 : ℝ) ≤ 0.7)] at hmono
        exact hmono
    · rw [if_neg hcap]
      exact ⟨hunit, le_trans (not_lt.mp hcap) (by norm_num)⟩
  · rintro ⟨h1, h2⟩
    simp only [calculateCastDirection, h1, h2]
    norm_num [Real.sqrt_zero]

/-- C8 witness: the amended theorem applied at rod tip (0, 0) and pointer
(3, 4) with right-facing flag. -/
theorem calculateCastDirection_unit_witness :
    ¬((3 : ℝ) - 0 = 0 ∧ (4 : ℝ) - 0 = 0) ∧
    ((calculateCastDirection 0 0 3 4 true).1 ^ 2 +
        (calculateCastDirection 0 0 3 4 true).2 ^ 2 = 1 ∧
      (calculateCastDirection 0 0 3 4 true).2 ≤ 1) :=
  ⟨by norm_num, (calculateCastDirection_unit 0 0 3 4 true).1 (by norm_num)⟩

/-- Helper: `reset` always leaves the machine in the IDLE state. -/
theorem reset_state (w : FSys) : (reset w).state = FState.IDLE := by
  unfold reset removeTimer
  cases w.fishingTimer <;> cases w.catchWindow <;> rfl

/-- Helper: `reset` clears the retained bite-timer handle. -/
theorem reset_fishingTimer (w : FSys) : (reset w).fishingTimer = none := by
  unfold reset removeTimer
  cases w.fishingTimer <;> cases w.catchWindow <;> rfl

/-- Helper: `reset` clears the retained catch-window handle. -/
theorem reset_catchWindow (w : FSys) : (reset w).catchWindow = none := by
  unfold reset removeTimer
  cases w.fishingTimer <;> cases w.catchWindow <;> rfl

/-- Helper: `reset` does not touch the hook-settle timer handle. -/
theorem reset_hookSettleTimer (w : FSys) :
    (reset w).hookSettleTimer = w.hookSettleTimer := by
  unfold reset removeTimer
  cases w.fishingTimer <;> cases w.catchWindow <;> rfl

/-- Helper: every delayed call still pending after a `reset` was pending
before, and its handle is neither the removed bite-timer handle nor the
removed catch-window handle. -/
theorem mem_reset_pending (w : FSys) (p : ℕ × TimerKind)
    (hp : p ∈ (reset w).pending) :
    p ∈ w.pending ∧
    (∀ i, w.fishingTimer = some i → p.1 ≠ i) ∧
    (∀ i, w.catchWindow = some i → p.1 ≠ i) := by
  unfold reset removeTimer at hp
  cases hf : w.fishingTimer <;> cases hc : w.catchWindow <;>
    rw [hf, hc] at hp <;> simp only [] at hp
  · exact ⟨hp, fun i hi => by simp at hi, fun i hi => by simp at hi⟩
  · have h1 := List.mem_filter.mp hp
    refine ⟨h1.1, fun i hi => by simp at hi, fun i hi => ?_⟩
    have := h1.2
    simp only [decide_eq_true_eq] at this
    cases hi
    exact this
  · have h1 := List.mem_filter.mp hp
    refine ⟨h1.1, fun i hi => ?_, fun i hi => by simp at hi⟩
    have := h1.2
    simp only [decide_eq_true_eq] at this
    cases hi
    exact this
  · have h1 := List.mem_filter.mp hp
    have h2 := List.mem_filter.mp h1.1
    refine ⟨h2.1, fun i hi => ?_, fun i hi => ?_⟩
    · have := h2.2
      simp only [decide_eq_true_eq] at this
      cases hi
      exact this
    · have := h1.2
      simp only [decide_eq_true_eq] at this
      cases hi
      exact this

/-- Helper: the state guard of `startFishing` makes it the identity outside
CASTING. -/
theorem startFishing_guard (w : FSys) (h : w.state ≠ FState.CASTING) :
    startFishing w = w := by
  unfold startFishing
  rw [if_neg h]

/-- Helper: the state guard of `triggerBite` makes it the identity outside
WAITING_FOR_BITE. -/
theorem triggerBite_guard (w : FSys) (h : w.state ≠ FState.WAITING_FOR_BITE) :
    triggerBite w = w := by
  unfold triggerBite
  rw [if_neg h]

/-- Helper: the state guard of `startReeling` makes it the identity outside
BITE. -/
theorem startReeling_guard (w : FSys) (h : w.state ≠ FState.BITE) :
    startReeling w = w := by
  unfold startReeling
  rw [if_neg h]

/-- Helper: the state guard of `catchFish` makes it the identity outside
REELING. -/
theorem catchFish_guard (w : FSys) (h : w.state ≠ FState.REELING) :
    catchFish w = w := by
  unfold catchFish
  rw [if_neg h]

/-- Helper: removing a timer does not change the fishing state. -/
theorem removeTimer_state (w : FSys) (id : ℕ) :
    (removeTimer w id).state = w.state := rfl

/-- Helper: from the IDLE state, firing any pending delayed call leaves the
machine in IDLE: every callback is either state-guarded or itself a reset. -/
theorem fire_from_IDLE (w : FSys) (hw : w.state = FState.IDLE) (id : ℕ)
    (e : HookEnv) : (fire w id e).state = FState.IDLE := by
  unfold fire
  cases hfind : w.pending.find? (fun p => decide (p.1 = id)) with
  | none => exact hw
  | some p =>
    obtain ⟨pid, k⟩ := p
    have hrs : (removeTimer w id).state = FState.IDLE := hw
    cases k
    · exact hrs
    · simp only [fireCallback]
      rw [triggerBite_guard _ (by rw [hrs]; decide)]
      exact hrs
    · simp only [fireCallback]
      rw [if_neg (by rw [hrs]; decide)]
      exact hrs
    · simp only [fireCallback]
      rw [catchFish_guard _ (by rw [hrs]; decide)]
      exact hrs
    · simp only [fireCallback]
      by_cases ht : e.touchingDown = true
      · simp only [ht, Bool.not_true, Bool.false_eq_true, if_false]
        by_cases hwa : (!e.inWater && autoRetractEnabled) = true
        · rw [if_pos hwa]
          exact reset_state _
        · rw [if_neg hwa]
          exact hrs
      · have ht' : e.touchingDown = false := by
          cases h : e.touchingDown
          · rfl
          · exact absurd h ht
        simp only [ht', Bool.not_false, if_true]
        exact hrs
    · exact reset_state _

/-- C2 counterexample: the hook-settle delayed call scheduled during CASTING
(handle 1) survives both the phase change into WAITING_FOR_BITE and the reset
machinery: it is still pending in the WAITING_FOR_BITE state, and when it
fires (hook grounded, outside water) it resets the machine to IDLE, changing
the fishing state and cancelling the pending bite timer (handle 2) — so it
was neither cancelled nor a no-op. -/
theorem stale_hookSettle_counterexample :
    demoF4.state = FState.WAITING_FOR_BITE ∧
    demoF4.hookSettleTimer = some 1 ∧
    (1, TimerKind.hookSettle) ∈ demoF4.pending ∧
    demoF4.fishingTimer = some 2 ∧
    (2, TimerKind.bite) ∈ demoF4.pending ∧
    demoF5.state = FState.IDLE ∧
    demoF5.state ≠ demoF4.state ∧
    demoF5.pending = [] ∧
    demoF5.fishingTimer = none := by
  decide

/-- C2 amended: `reset` cancels the two delayed callbacks whose handles it
retains for that purpose — the bite/reeling timer (`fishingTimer`) and the
catch-window timer — removing them from the pending set, and any delayed
callback that fires after a reset leaves the state at IDLE (the remaining
callbacks are state-guarded no-ops or resets). The hook-settle timer,
however, is not cancelled by `reset` (its handle survives), and a stale
hook-settle callback can reset the machine out of WAITING_FOR_BITE, changing
state and timers (see the counterexample). -/
theorem reset_cancels_retained_timers (w : FSys) (id : ℕ) (e : HookEnv) :
    (reset w).fishingTimer = none ∧
    (reset w).catchWindow = none ∧
    (∀ i, (w.fishingTimer = some i ∨ w.catchWindow = some i) →
      ∀ kk : TimerKind, (i, kk) ∉ (reset w).pending) ∧
    (reset w).hookSettleTimer = w.hookSettleTimer ∧
    (fire (reset w) id e).state = FState.IDLE := by
  refine ⟨reset_fishingTimer w, reset_catchWindow w, ?_, reset_hookSettleTimer w,
    fire_from_IDLE _ (reset_state w) id e⟩
  intro i hi kk hmem
  obtain ⟨_, hft, hcw⟩ := mem_reset_pending w (i, kk) hmem
  rcases hi with hi | hi
  · exact hft i hi rfl
  · exact hcw i hi rfl

/-- C2 witness: applied to the trace state in WAITING_FOR_BITE with the
pending bite timer: after a reset the bite timer handle 2 is gone from the
pending set and a subsequent firing of any handle leaves the state IDLE. -/
theorem reset_cancels_retained_timers_witness :
    demoF4.fishingTimer = some 2 ∧
    ((2 : ℕ), TimerKind.bite) ∉ (reset demoF4).pending ∧
    (fire (reset demoF4) 1 envDry).state = FState.IDLE :=
  ⟨by decide,
   (reset_cancels_retained_timers demoF4 1 envDry).2.2.1 2 (Or.inl (by decide))
     TimerKind.bite,
   (reset_cancels_retained_timers demoF4 1 envDry).2.2.2.2⟩

/-- C9: whenever a modelled exception is thrown during `update` (rod update,
line update, water-membership check or the frame tail), the frame ends with
the machine reset, so `getState` reads IDLE afterwards. -/
theorem update_exception_resets (w : FSys) (e : UpdEnv)
    (h : (update w e).2 = true) : getState (update w e).1 = FState.IDLE := by
  have hwater : ∀ v : FSys, (updateWater v e).2 = true →
      (updateWater v e).1.state = FState.IDLE := by
    intro v hv
    unfold updateWater at hv ⊢
    by_cases hc : v.state = FState.CASTING ∧ v.lineActive = true
    · rw [if_pos hc] at hv ⊢
      by_cases h3 : e.throwWaterCheck = true
      · rw [if_pos h3]
        exact reset_state _
      · rw [if_neg h3] at hv
        by_cases hw : e.hookEnv.inWater = true
        · rw [if_pos hw] at hv
          simp at hv
        · rw [if_neg hw] at hv
          simp at hv
    · rw [if_neg hc] at hv
      simp at hv
  unfold getState
  unfold update at h ⊢
  by_cases h1 : e.throwRodUpdate = true
  · rw [if_pos h1]
    exact reset_state w
  · rw [if_neg h1] at h ⊢
    by_cases h2 : e.throwLineUpdate = true
    · rw [if_pos h2]
      exact reset_state w
    · rw [if_neg h2] at h ⊢
      by_cases h4 : e.throwIndicator = true
      · rw [if_pos h4]
        exact reset_state _
      · rw [if_neg h4] at h ⊢
        exact hwater (updateInputs w e) h

/-- Per-frame environment in which the rod update throws. -/
def envThrow : UpdEnv :=
  { throwRodUpdate := true
    throwLineUpdate := false
    throwWaterCheck := false
    throwIndicator := false
    castInput := false
    reelInput := false
    hookEnv := envDry }

/-- C9 witness: with a throwing rod update from the initial state, the frame
reports an exception and the state reads IDLE. -/
theorem update_exception_resets_witness :
    (update initFSys envThrow).2 = true ∧
    getState (update initFSys envThrow).1 = FState.IDLE :=
  ⟨by decide, update_exception_resets initFSys envThrow (by decide)⟩

/-- C10: each internal transition handler is a no-op (returning the state
record unchanged, timers included) when invoked outside its unique source
state: `startFishing` outside CASTING, `triggerBite` outside
WAITING_FOR_BITE, `startReeling` outside BITE and `catchFish` outside
REELING. -/
theorem transition_handlers_guarded (w : FSys) :
    (w.state ≠ FState.CASTING → startFishing w = w) ∧
    (w.state ≠ FState.WAITING_FOR_BITE → triggerBite w = w) ∧
    (w.state ≠ FState.BITE → startReeling w = w) ∧
    (w.state ≠ FState.REELING → catchFish w = w) :=
  ⟨startFishing_guard w, triggerBite_guard w, startReeling_guard w, catchFish_guard w⟩

/-- C10 witness: out-of-order invocations from the initial (IDLE) state are
no-ops. -/
theorem transition_handlers_guarded_witness :
    (initFSys.state ≠ FState.CASTING ∧ startFishing initFSys = initFSys) ∧
    (initFSys.state ≠ FState.REELING ∧ catchFish initFSys = initFSys) :=
  ⟨⟨by decide, (transition_handlers_guarded initFSys).1 (by decide)⟩,
   ⟨by decide, (transition_handlers_guarded initFSys).2.2.2 (by decide)⟩⟩

end FishingSystem

end FishingGame
